import Mathlib

/-!
Verification development for the internal web search engine
(Next.js client in app/page.tsx and frontend/app/page.tsx, plus a
crawl/index/search backend specified in spec.md).

Pure client-side computations (result display selection, domain
filtering, pagination, domain extraction, crawl-status handling,
start-button gating) are embedded directly from the two page.tsx
sources.  The backend engine (traversal scheduler, indexer, query
engine, crawl state machine) is not part of the source tree, so those
operations are modelled from the spec; each such definition is marked
with a doc comment starting with "Modelled from the spec:".
-/

/-! ## Client data model (frontend/app/page.tsx, app/page.tsx) -/

/-- One step of a provenance route, `{url, title}` (SearchResult.route
element in both page.tsx files, Route entity of spec §3). -/
structure RouteStep where
  url : String
  title : String
deriving DecidableEq, Repr

/-- SearchResult record of frontend/app/page.tsx (lines 42-50): `url`,
`title`, `content_snippet`, `similarity_score`, `route`, `last_crawled`
and the optional `domain` field (absent on the old UI's records). -/
structure FrontendResult where
  url : String
  title : String
  contentSnippet : String
  similarityScore : ℚ
  route : List RouteStep
  lastCrawled : Nat
  domain : Option String
deriving DecidableEq, Repr

/-- JS whitespace test for the characters relevant to query strings. -/
def isWsChar (c : Char) : Bool :=
  c == ' ' || c == '\t' || c == '\n' || c == '\r'

/-- JS String.prototype.trim on a character list: strip whitespace from
both ends. -/
def trimL (cs : List Char) : List Char :=
  ((cs.dropWhile isWsChar).reverse.dropWhile isWsChar).reverse

/-- String-valued JS trim, used where page.tsx calls query.trim() to
build a request body. -/
def trimString (s : String) : String :=
  String.mk (trimL s.toList)

/-- frontend/app/page.tsx line 419:
displayResults = query.trim() ? searchResults : allPages.
A string is truthy exactly when it is nonempty, so a query that trims
to empty selects the full crawled-page set. -/
def displayResults (query : String) (searchResults allPages : List FrontendResult) :
    List FrontendResult :=
  if (trimL query.toList).isEmpty then allPages else searchResults

/-- frontend/app/page.tsx lines 422-425: keep a page when the filter is
"all", otherwise keep it when page.domain === domainFilter (an absent
domain compares unequal to every string). -/
def filteredResults (domainFilter : String) (results : List FrontendResult) :
    List FrontendResult :=
  results.filter (fun page =>
    if domainFilter == "all" then true else page.domain == some domainFilter)

/-- JS Array.prototype.slice(start, stop) for in-range Nat arguments:
the elements at indices start, ..., stop-1. -/
def jsSlice (start stop : Nat) (l : List FrontendResult) : List FrontendResult :=
  (l.drop start).take (stop - start)

/-- frontend/app/page.tsx line 429:
paginatedResults = filteredResults.slice((currentPage-1)*itemsPerPage,
currentPage*itemsPerPage). -/
def paginatedResults (results : List FrontendResult) (currentPage itemsPerPage : Nat) :
    List FrontendResult :=
  jsSlice ((currentPage - 1) * itemsPerPage) (currentPage * itemsPerPage) results

/-- frontend/app/page.tsx line 428:
totalPages = Math.ceil(filteredResults.length / itemsPerPage),
as exact ceiling division on Nat. -/
def totalPagesCount (n itemsPerPage : Nat) : Nat :=
  (n + itemsPerPage - 1) / itemsPerPage

/-- Bool test that pat occurs as a prefix of l (character lists). -/
def hasPrefixL : List Char → List Char → Bool
  | [], _ => true
  | _ :: _, [] => false
  | p :: ps, c :: cs => p == c && hasPrefixL ps cs

/-- JS String.prototype.replace(pat, "") with a string pattern: remove
the first occurrence of pat anywhere in the string (not only a leading
occurrence), leaving the string unchanged when pat does not occur. -/
def removeFirstL (pat : List Char) : List Char → List Char
  | [] => []
  | c :: cs =>
    if hasPrefixL pat (c :: cs) then (c :: cs).drop pat.length
    else c :: removeFirstL pat cs

/-- Occurrence test: pat occurs in l starting at index i. -/
def occursAtB (pat l : List Char) (i : Nat) : Bool :=
  hasPrefixL pat (l.drop i)

/-- The pattern string "www." of extractDomain. -/
def wwwPat : List Char := ['w', 'w', 'w', '.']

/-- frontend/app/page.tsx lines 315-322: extractDomain tries
new URL(url) and returns urlObj.hostname.replace("www.", ""), falling
back to "unknown" when URL construction throws.  The WHATWG URL parser
is external library code, abstracted as a parseHostname function that
yields the hostname character list or none on parse failure. -/
def extractDomain (parseHostname : String → Option (List Char)) (url : String) :
    List Char :=
  match parseHostname url with
  | some host => removeFirstL wwwPat host
  | none => "unknown".toList

/-- Effects of the new UI's crawl-status handler on client state
(frontend/app/page.tsx lines 212-234): when the reported status is
"completed" or "idle" the crawling flag is cleared, and on "completed"
the client additionally fetches all pages and shows the results panel;
any other status leaves the flags untouched. -/
structure StatusEffects where
  isCrawling : Bool
  fetchedAllPages : Bool
  showResults : Bool
deriving DecidableEq, Repr

/-- frontend/app/page.tsx lines 212-234 (fetchCrawlStatus success
path), as a pure function of the reported status string and the
current isCrawling / showResults flags. -/
def fetchCrawlStatusUpdate (status : String) (isCrawling showResults : Bool) :
    StatusEffects :=
  if status == "completed" || status == "idle" then
    { isCrawling := false
      fetchedAllPages := status == "completed"
      showResults := if status == "completed" then true else showResults }
  else
    { isCrawling := isCrawling, fetchedAllPages := false, showResults := showResults }

/-- app/page.tsx lines 151-164 (old UI fetchCrawlStatus): the new value
of isCrawling after a status response. -/
def fetchCrawlStatusUpdateOld (status : String) (isCrawling : Bool) : Bool :=
  if status == "completed" || status == "idle" then false else isCrawling

/-- Client-side crawl-control state: the isCrawling flag plus a count
of crawl-start requests issued so far. -/
structure ClientState where
  isCrawling : Bool
  startRequestsSent : Nat
deriving DecidableEq, Repr

/-- frontend/app/page.tsx line 461 and app/page.tsx line 377: the start
button is rendered with disabled={isCrawling}, so a click while
isCrawling is a no-op; otherwise startCrawl (frontend lines 236-264)
sets isCrawling to true and issues one POST /crawl/start request. -/
def clickStartButton (s : ClientState) : ClientState :=
  if s.isCrawling then s
  else { isCrawling := true, startRequestsSent := s.startRequestsSent + 1 }

/-- Body of a POST /search request as built by the clients. -/
structure SearchRequest where
  query : String
  limit : Int
  domainFilter : Option String
deriving DecidableEq, Repr

/-- app/page.tsx lines 210-236 (old UI performSearch): returns early
without any request when the query trims to empty, otherwise sends
{query, limit: 10} with no domain filter. -/
def oldUIPerformSearch (q : String) : Option SearchRequest :=
  if (trimL q.toList).isEmpty then none
  else some { query := q, limit := 10, domainFilter := none }

/-- frontend/app/page.tsx lines 327-337 (new UI performSearch): always
sends {query: query.trim(), limit: 100, domain_filter} where the filter
is null when the selection is "all". -/
def newUIPerformSearch (q : String) (domainFilter : String) : SearchRequest :=
  { query := trimString q
    limit := 100
    domainFilter := if domainFilter == "all" then none else some domainFilter }

/-- frontend/app/page.tsx lines 282-292 (fetchAllPages): the list-all
request {query: "", limit: 1000, domain_filter: null}. -/
def fetchAllPagesRequest : SearchRequest :=
  { query := "", limit := 1000, domainFilter := none }

/-! ## Backend model (modelled from the spec; the Python engine named
by README.md — crawler/web_crawler.py, crawler/search_engine.py,
main.py — is not in the source tree) -/

/-- An indexed document as the Query Engine sees it: url, title,
domain, last-crawled timestamp and normalized terms. -/
structure SearchDoc where
  url : String
  title : String
  domain : String
  lastCrawled : Nat
  terms : List String
deriving DecidableEq, Repr

/-- Search failure taxonomy relevant to the Search contract of spec §6. -/
inductive SearchFailure where
  | invalidLimit
deriving DecidableEq, Repr

/-- Whitespace tokenizer: split a character list into maximal runs of
non-whitespace characters. -/
def splitWsAux : List Char → List Char → List (List Char)
  | [], acc => if acc.isEmpty then [] else [acc.reverse]
  | c :: cs, acc =>
    if isWsChar c then
      if acc.isEmpty then splitWsAux cs [] else acc.reverse :: splitWsAux cs []
    else splitWsAux cs (c :: acc)

/-- Modelled from the spec: the Text Normalizer's term extraction for a
query string (spec §2, §4.3); a blank (empty or whitespace-only) query
yields no terms. -/
def queryTerms (q : String) : List (List Char) :=
  splitWsAux q.toList []

/-- Insert one scored document into a ranked list: descending score,
ties broken by most recent lastCrawled first (spec §4.3). -/
def rankedInsert (x : SearchDoc × ℚ) : List (SearchDoc × ℚ) → List (SearchDoc × ℚ)
  | [] => [x]
  | y :: ys =>
    if y.2 < x.2 ∨ (x.2 = y.2 ∧ y.1.lastCrawled ≤ x.1.lastCrawled) then x :: y :: ys
    else y :: rankedInsert x ys

/-- Rank a scored candidate list per spec §4.3 ordering. -/
def rankSort (l : List (SearchDoc × ℚ)) : List (SearchDoc × ℚ) :=
  l.foldr rankedInsert []

/-- Modelled from the spec: the Search operation of §6/§4.3.  It fails
with InvalidLimit when limit <= 0; otherwise it optionally restricts
candidates to the domain filter, and a query with no terms is a listing
operation returning all candidates in insertion order with score 0,
while a non-blank query ranks candidates by cosine TF-IDF score and
truncates to limit.  The numeric score of the non-blank branch uses
ln and square roots, which have no exact executable embedding, so the
scoring function is a parameter; the claims settled here depend only on
the listing branch and the limit gate. -/
def searchDocs (score : SearchDoc → ℚ) (q : String) (domainFilter : Option String)
    (limit : Int) (docs : List SearchDoc) :
    Except SearchFailure (List (SearchDoc × ℚ)) :=
  if limit ≤ 0 then Except.error SearchFailure.invalidLimit
  else
    let cands := match domainFilter with
      | none => docs
      | some dom => docs.filter (fun d => d.domain == dom)
    if queryTerms q = [] then
      Except.ok ((cands.map (fun d => (d, (0 : ℚ)))).take limit.toNat)
    else
      Except.ok ((rankSort (cands.map (fun d => (d, score d)))).take limit.toNat)

/-- The Indexer's document store: per-url normalized term lists, in
insertion order.  Postings and document-frequency counts are derived
views of this store. -/
abbrev IndexState := List (String × List String)

/-- Modelled from the spec: Indexer.addDocument(url, normalizedTerms)
(spec §4.2) — re-indexing a url first removes its old postings, then
records the new terms. -/
def addDocument (url : String) (terms : List String) (idx : IndexState) : IndexState :=
  (idx.filter (fun d => d.1 != url)) ++ [(url, terms)]

/-- Modelled from the spec: document frequency of a term — the number
of indexed documents whose term list contains it (spec §3 IndexEntry). -/
def docFrequency (t : String) (idx : IndexState) : Nat :=
  (idx.filter (fun d => d.2.contains t)).length

/-- Modelled from the spec: Indexer.vocabularySize() — the number of
distinct terms across all indexed documents (spec §4.2). -/
def vocabularySize (idx : IndexState) : Nat :=
  (idx.foldr (fun d acc => d.2 ++ acc) []).dedup.length

/-- A crawled Page record as needed for route reconstruction: url,
title, depth and the discoveredVia parent url (none for seeds),
per spec §3. -/
structure Page where
  url : String
  title : String
  depth : Nat
  parent : Option String
deriving DecidableEq, Repr

/-- Look a page up by url in the page store (urls are unique keys). -/
def findPage (store : List Page) (u : String) : Option Page :=
  store.find? (fun p => p.url == u)

/-- Well-formedness of one page record: a parentless page is a seed at
depth 0, and a discovered page's parent is present in the store at
depth one less. -/
def pageOkB (store : List Page) (p : Page) : Bool :=
  match p.parent with
  | none => p.depth == 0
  | some u =>
    match findPage store u with
    | none => false
    | some q => q.depth + 1 == p.depth

/-- Well-formedness of the page store: every page satisfies pageOkB. -/
def wfStoreB (store : List Page) : Bool :=
  store.all (fun p => pageOkB store p)

/-- Modelled from the spec: route reconstruction (spec §3 Route, §9) —
walk discoveredVia parent pointers back to a seed, bounded by the
page's depth, emitting {url, title} steps from the seed to the target. -/
def routeAux (store : List Page) : Nat → Page → List RouteStep
  | 0, p => [{ url := p.url, title := p.title }]
  | n + 1, p =>
    match p.parent with
    | none => [{ url := p.url, title := p.title }]
    | some u =>
      match findPage store u with
      | none => [{ url := p.url, title := p.title }]
      | some q => routeAux store n q ++ [{ url := p.url, title := p.title }]

/-- Modelled from the spec: route(p), the provenance route of a crawled
page. -/
def route (store : List Page) (p : Page) : List RouteStep :=
  routeAux store p.depth p

/-- Url of the first step of a route, when there is one. -/
def firstUrlOf (r : List RouteStep) : Option String :=
  r.head?.map (fun s => s.url)

/-- Url of the last step of a route, when there is one. -/
def lastUrlOf (r : List RouteStep) : Option String :=
  r.getLast?.map (fun s => s.url)

/-- Does the given (optional) url name a seed page of the store, i.e. a
stored page with depth 0 and no parent? -/
def seedAt (store : List Page) : Option String → Bool
  | none => false
  | some u =>
    match findPage store u with
    | none => false
    | some s => s.depth == 0 && s.parent == none

/-- Crawl State Machine states (spec §4.5). -/
inductive CrawlState where
  | idle
  | crawling
  | completed
  | stopped
deriving DecidableEq, Repr

/-- StateError taxonomy for crawl-start (spec §6, §7). -/
inductive CrawlStateFailure where
  | alreadyRunning
deriving DecidableEq, Repr

/-- Modelled from the spec: the StartCrawl transition of the Crawl
State Machine (spec §4.5) — rejected with AlreadyRunning while
crawling, otherwise (idle or a terminal state) a new job starts and the
status becomes crawling. -/
def startCrawlTransition : CrawlState → Except CrawlStateFailure CrawlState
  | CrawlState.crawling => Except.error CrawlStateFailure.alreadyRunning
  | _ => Except.ok CrawlState.crawling

/-- Modelled from the spec: the breadth-first traversal loop of the
Frontier and Traversal Scheduler (spec §4.1) over an abstract link
graph succ.  The frontier is a FIFO queue of (url, depth) entries;
each iteration dequeues the head, skips it when already visited or
deeper than maxDepth, and otherwise visits it and enqueues its outbound
links at depth + 1 at the tail.  fuel bounds the number of loop
iterations, standing in for the termination conditions of §4.1. -/
def bfsRun (succ : String → List String) (maxDepth : Nat) :
    Nat → List (String × Nat) → List String → List (String × Nat)
  | 0, _, _ => []
  | _ + 1, [], _ => []
  | fuel + 1, (u, d) :: rest, visited =>
    if u ∈ visited then bfsRun succ maxDepth fuel rest visited
    else if maxDepth < d then bfsRun succ maxDepth fuel rest visited
    else (u, d) :: bfsRun succ maxDepth fuel
      (rest ++ (succ u).map (fun v => (v, d + 1))) (u :: visited)

/-- Modelled from the spec: a breadth-first crawl from the seed urls at
depth 0 (spec §4.1); the result is the visit order as (url, depth)
pairs. -/
def bfsCrawl (succ : String → List String) (maxDepth fuel : Nat)
    (seeds : List String) : List (String × Nat) :=
  bfsRun succ maxDepth fuel (seeds.map (fun s => (s, 0))) []

/-! ## Helper lemmas -/

/-- The search operation returns InvalidLimit exactly on a
non-positive limit. -/
theorem searchDocs_error_iff (score : SearchDoc → ℚ) (q : String)
    (domainFilter : Option String) (limit : Int) (docs : List SearchDoc) :
    searchDocs score q domainFilter limit docs
      = Except.error SearchFailure.invalidLimit ↔ limit ≤ 0 := by
  unfold searchDocs
  by_cases h : limit ≤ 0
  · simp [h]
  · simp only [h, if_false]
    constructor
    · intro hcontra
      split at hcontra <;> simp at hcontra
    · intro hcontra
      exact hcontra.elim

/-! ## Claims -/

/-- C4: indexing is idempotent per url — calling addDocument twice with
the same url and the same normalized terms leaves the whole index
state, hence vocabularySize() and every term's document-frequency
count, equal to the values after a single call. -/
theorem claim4_addDocument_idempotent (u : String) (ts : List String)
    (idx : IndexState) (t : String) :
    addDocument u ts (addDocument u ts idx) = addDocument u ts idx ∧
    vocabularySize (addDocument u ts (addDocument u ts idx))
      = vocabularySize (addDocument u ts idx) ∧
    docFrequency t (addDocument u ts (addDocument u ts idx))
      = docFrequency t (addDocument u ts idx) := by
  have key : addDocument u ts (addDocument u ts idx) = addDocument u ts idx := by
    unfold addDocument
    rw [List.filter_append, List.filter_filter]
    simp
  exact ⟨key, by rw [key], by rw [key]⟩

/-- C6: the domain filter restricts results exactly — filter "all"
keeps every result unchanged and in order, and a specific domain keeps
exactly the results whose domain equals the filter, in their original
order (the filtered list is a sublist of the original). -/
theorem claim6_domain_filter (rs : List FrontendResult) (f : String)
    (p : FrontendResult) (hf : f ≠ "all") :
    filteredResults "all" rs = rs ∧
    (p ∈ filteredResults f rs ↔ (p ∈ rs ∧ p.domain = some f)) ∧
    (filteredResults f rs).Sublist rs := by
  have hb : (f == "all") = false := beq_eq_false_iff_ne.mpr hf
  refine ⟨?_, ?_, ?_⟩
  · simp [filteredResults]
  · simp [filteredResults, hb, List.mem_filter]
  · exact List.filter_sublist rs

/-- C9: the crawl-status handler clears the client's crawling flag
exactly when the reported status is "completed" or "idle"; any other
status — in particular "stopped" — leaves the flag unchanged, in both
the new UI handler and the old UI handler. -/
theorem claim9_crawl_status_flag (s : String) (b sr : Bool)
    (h1 : s ≠ "completed") (h2 : s ≠ "idle") :
    (fetchCrawlStatusUpdate "completed" b sr).isCrawling = false ∧
    (fetchCrawlStatusUpdate "idle" b sr).isCrawling = false ∧
    (fetchCrawlStatusUpdate s b sr).isCrawling = b ∧
    (fetchCrawlStatusUpdate "stopped" b sr).isCrawling = b ∧
    fetchCrawlStatusUpdateOld "completed" b = false ∧
    fetchCrawlStatusUpdateOld "idle" b = false ∧
    fetchCrawlStatusUpdateOld s b = b := by
  have hb1 : (s == "completed") = false := beq_eq_false_iff_ne.mpr h1
  have hb2 : (s == "idle") = false := beq_eq_false_iff_ne.mpr h2
  refine ⟨?_, ?_, ?_, ?_, ?_, ?_, ?_⟩ <;>
    simp [fetchCrawlStatusUpdate, fetchCrawlStatusUpdateOld, hb1, hb2]

/-- C9 witness: a "stopped" response leaves isCrawling true, while
"completed" and "idle" clear it. -/
theorem claim9_crawl_status_flag_witness :
    (fetchCrawlStatusUpdate "completed" true false).isCrawling = false ∧
    (fetchCrawlStatusUpdate "idle" true false).isCrawling = false ∧
    (fetchCrawlStatusUpdate "stopped" true false).isCrawling = true ∧
    (fetchCrawlStatusUpdate "stopped" true false).isCrawling = true ∧
    fetchCrawlStatusUpdateOld "completed" true = false ∧
    fetchCrawlStatusUpdateOld "idle" true = false ∧
    fetchCrawlStatusUpdateOld "stopped" true = true :=
  claim9_crawl_status_flag "stopped" true false (by decide) (by decide)

/-- C7: at most one CrawlJob is active at a time — the state machine
rejects a start request while status is crawling (and accepts from any
non-crawling state), and the client start button is a no-op while
isCrawling is true, while a click in a non-crawling state sets
isCrawling before exactly one start request is issued. -/
theorem claim7_single_active_crawl (s t : ClientState) (st : CrawlState)
    (hs : s.isCrawling = true) (ht : t.isCrawling = false)
    (hst : st ≠ CrawlState.crawling) :
    startCrawlTransition CrawlState.crawling
      = Except.error CrawlStateFailure.alreadyRunning ∧
    startCrawlTransition st = Except.ok CrawlState.crawling ∧
    clickStartButton s = s ∧
    (clickStartButton t).isCrawling = true ∧
    (clickStartButton t).startRequestsSent = t.startRequestsSent + 1 := by
  refine ⟨rfl, ?_, ?_, ?_, ?_⟩
  · cases st <;> simp_all [startCrawlTransition]
  · simp [clickStartButton, hs]
  · simp [clickStartButton, ht]
  · simp [clickStartButton, ht]

/-- C7 witness: concrete client states on both sides of the flag and a
start from idle. -/
theorem claim7_single_active_crawl_witness :
    startCrawlTransition CrawlState.crawling
      = Except.error CrawlStateFailure.alreadyRunning ∧
    startCrawlTransition CrawlState.idle = Except.ok CrawlState.crawling ∧
    clickStartButton { isCrawling := true, startRequestsSent := 1 }
      = { isCrawling := true, startRequestsSent := 1 } ∧
    (clickStartButton { isCrawling := false, startRequestsSent := 0 }).isCrawling
      = true ∧
    (clickStartButton { isCrawling := false, startRequestsSent := 0 }).startRequestsSent
      = 0 + 1 :=
  claim7_single_active_crawl
    { isCrawling := true, startRequestsSent := 1 }
    { isCrawling := false, startRequestsSent := 0 }
    CrawlState.idle rfl rfl (by decide)

/-- C1: a blank query is a listing operation — the search operation on
a query with no terms and no filter returns all indexed documents in
insertion order with score 0 (given the documents fit in the positive
limit), and a client query trimming to empty makes the new UI display
the full crawled-page set allPages while the old UI sends no search
request at all. -/
theorem claim1_blank_query_listing (score : SearchDoc → ℚ) (q : String)
    (docs : List SearchDoc) (limit : Int) (uiQuery : String)
    (searchResults allPages : List FrontendResult)
    (hq : queryTerms q = []) (hlen : docs.length ≤ limit.toNat) (hpos : 0 < limit)
    (hui : trimL uiQuery.toList = []) :
    searchDocs score q none limit docs
      = Except.ok (docs.map (fun d => (d, (0 : ℚ)))) ∧
    displayResults uiQuery searchResults allPages = allPages ∧
    oldUIPerformSearch uiQuery = none := by
  refine ⟨?_, ?_, ?_⟩
  · unfold searchDocs
    rw [if_neg (by omega), if_pos hq]
    rw [List.take_of_length_le (by simpa using hlen)]
  · unfold displayResults
    rw [hui]
    rfl
  · unfold oldUIPerformSearch
    rw [hui]
    rfl

/-- C1 witness: a whitespace-only query over two indexed pages lists
both in insertion order with score 0, and the matching client states. -/
theorem claim1_blank_query_listing_witness :
    searchDocs (fun _ => 0) "  " none 1000
      [ { url := "https://upi.edu/a", title := "A", domain := "upi.edu",
          lastCrawled := 5, terms := ["upi"] },
        { url := "https://upi.edu/b", title := "B", domain := "upi.edu",
          lastCrawled := 7, terms := ["fpmipa"] } ]
      = Except.ok
        [ ({ url := "https://upi.edu/a", title := "A", domain := "upi.edu",
             lastCrawled := 5, terms := ["upi"] }, (0 : ℚ)),
          ({ url := "https://upi.edu/b", title := "B", domain := "upi.edu",
             lastCrawled := 7, terms := ["fpmipa"] }, (0 : ℚ)) ] ∧
    displayResults " "
      [ { url := "https://upi.edu/a", title := "A", contentSnippet := "",
          similarityScore := 1, route := [], lastCrawled := 5,
          domain := some "upi.edu" } ]
      [ { url := "https://upi.edu/b", title := "B", contentSnippet := "",
          similarityScore := 0, route := [], lastCrawled := 7,
          domain := some "upi.edu" } ]
      = [ { url := "https://upi.edu/b", title := "B", contentSnippet := "",
            similarityScore := 0, route := [], lastCrawled := 7,
            domain := some "upi.edu" } ] ∧
    oldUIPerformSearch " " = none :=
  claim1_blank_query_listing (fun _ => 0) "  " _ 1000 " " _ _
    (by decide) (by decide) (by decide) (by decide)

/-- C5: search fails with InvalidLimit exactly when limit <= 0, and
every search request the clients issue carries a positive limit (10
from the old UI, 100 for new UI searches, 1000 for the list-all
request), so no UI-issued request can reach the InvalidLimit branch. -/
theorem claim5_invalid_limit_unreachable (score : SearchDoc → ℚ) (q : String)
    (fOpt : Option String) (limit : Int) (docs : List SearchDoc)
    (q2 f2 : String) (r : SearchRequest)
    (hr : oldUIPerformSearch q2 = some r) :
    (searchDocs score q fOpt limit docs
        = Except.error SearchFailure.invalidLimit ↔ limit ≤ 0) ∧
    r.limit = 10 ∧
    (newUIPerformSearch q2 f2).limit = 100 ∧
    fetchAllPagesRequest.limit = 1000 ∧
    searchDocs score r.query r.domainFilter r.limit docs
      ≠ Except.error SearchFailure.invalidLimit ∧
    searchDocs score (newUIPerformSearch q2 f2).query
        (newUIPerformSearch q2 f2).domainFilter
        (newUIPerformSearch q2 f2).limit docs
      ≠ Except.error SearchFailure.invalidLimit ∧
    searchDocs score fetchAllPagesRequest.query fetchAllPagesRequest.domainFilter
        fetchAllPagesRequest.limit docs
      ≠ Except.error SearchFailure.invalidLimit := by
  have hr10 : r.limit = 10 := by
    unfold oldUIPerformSearch at hr
    split at hr
    · exact absurd hr (by simp)
    · cases Option.some.inj hr
      rfl
  refine ⟨searchDocs_error_iff score q fOpt limit docs, hr10, rfl, rfl, ?_, ?_, ?_⟩
  · intro hcontra
    have := (searchDocs_error_iff score r.query r.domainFilter r.limit docs).mp hcontra
    rw [hr10] at this
    omega
  · intro hcontra
    have := (searchDocs_error_iff score (newUIPerformSearch q2 f2).query
      (newUIPerformSearch q2 f2).domainFilter (newUIPerformSearch q2 f2).limit docs).mp
      hcontra
    simp [newUIPerformSearch] at this
  · intro hcontra
    have := (searchDocs_error_iff score fetchAllPagesRequest.query
      fetchAllPagesRequest.domainFilter fetchAllPagesRequest.limit docs).mp hcontra
    simp [fetchAllPagesRequest] at this

/-- C5 witness: the old UI request for a concrete query has limit 10
and none of the concrete client requests yields InvalidLimit. -/
theorem claim5_invalid_limit_unreachable_witness :
    (searchDocs (fun _ => 0) "upi" none (-1) []
        = Except.error SearchFailure.invalidLimit ↔ (-1 : Int) ≤ 0) ∧
    ({ query := "upi", limit := 10, domainFilter := none } : SearchRequest).limit = 10 ∧
    (newUIPerformSearch "upi" "all").limit = 100 ∧
    fetchAllPagesRequest.limit = 1000 ∧
    searchDocs (fun _ => 0)
        ({ query := "upi", limit := 10, domainFilter := none } : SearchRequest).query
        ({ query := "upi", limit := 10, domainFilter := none } : SearchRequest).domainFilter
        ({ query := "upi", limit := 10, domainFilter := none } : SearchRequest).limit []
      ≠ Except.error SearchFailure.invalidLimit ∧
    searchDocs (fun _ => 0) (newUIPerformSearch "upi" "all").query
        (newUIPerformSearch "upi" "all").domainFilter
        (newUIPerformSearch "upi" "all").limit []
      ≠ Except.error SearchFailure.invalidLimit ∧
    searchDocs (fun _ => 0) fetchAllPagesRequest.query
        fetchAllPagesRequest.domainFilter fetchAllPagesRequest.limit []
      ≠ Except.error SearchFailure.invalidLimit :=
  claim5_invalid_limit_unreachable (fun _ => 0) "upi" none (-1) [] "upi" "all"
    { query := "upi", limit := 10, domainFilter := none } (by decide)

/-- Concatenating the page slices for k consecutive pages starting
after page start yields the corresponding take of the suffix. -/
theorem paginated_flatten_aux (l : List FrontendResult) (ipp : Nat) :
    ∀ (k start : Nat),
      ((List.range' (start + 1) k).map (fun pg => paginatedResults l pg ipp)).flatten
        = (l.drop (start * ipp)).take (k * ipp) := by
  intro k
  induction k with
  | zero => intro start; simp
  | succ k ih =>
    intro start
    rw [List.range'_succ, List.map_cons, List.flatten_cons, ih (start + 1)]
    have hfirst : paginatedResults l (start + 1) ipp = (l.drop (start * ipp)).take ipp := by
      unfold paginatedResults jsSlice
      have h1 : start + 1 - 1 = start := by omega
      have h2 : (start + 1) * ipp - start * ipp = ipp := by
        rw [Nat.succ_mul]
        omega
      rw [h1, h2]
    rw [hfirst]
    have h3 : l.drop ((start + 1) * ipp) = (l.drop (start * ipp)).drop ipp := by
      rw [List.drop_drop]
      congr 1
      rw [Nat.succ_mul]
    rw [h3, ← List.take_add]
    congr 1
    rw [Nat.succ_mul]
    omega

/-- Ceiling division recovers at least the numerator. -/
theorem totalPagesCount_mul_ge (n ipp : Nat) (hipp : 0 < ipp) :
    n ≤ totalPagesCount n ipp * ipp := by
  unfold totalPagesCount
  have hdm := Nat.div_add_mod (n + ipp - 1) ipp
  have hmod : (n + ipp - 1) % ipp < ipp := Nat.mod_lt _ hipp
  have hcomm : (n + ipp - 1) / ipp * ipp = ipp * ((n + ipp - 1) / ipp) :=
    Nat.mul_comm _ _
  rw [hcomm]
  generalize ipp * ((n + ipp - 1) / ipp) = m at hdm ⊢
  omega

/-- C8: pagination partitions the filtered result list — each page
slice has at most itemsPerPage elements, and the concatenation of the
slices for currentPage = 1 .. ceil(n / itemsPerPage) is the full list
in order. -/
theorem claim8_pagination_partitions (l : List FrontendResult) (page ipp : Nat)
    (hipp : 0 < ipp) :
    (paginatedResults l page ipp).length ≤ ipp ∧
    ((List.range' 1 (totalPagesCount l.length ipp)).map
        (fun pg => paginatedResults l pg ipp)).flatten = l := by
  constructor
  · unfold paginatedResults jsSlice
    have hle : page * ipp - (page - 1) * ipp ≤ ipp := by
      have : page * ipp ≤ (page - 1) * ipp + ipp := by
        have hp : page ≤ (page - 1) + 1 := by omega
        calc page * ipp ≤ ((page - 1) + 1) * ipp := Nat.mul_le_mul_right ipp hp
          _ = (page - 1) * ipp + ipp := by rw [Nat.succ_mul]
      omega
    calc ((l.drop ((page - 1) * ipp)).take (page * ipp - (page - 1) * ipp)).length
        ≤ page * ipp - (page - 1) * ipp := by
          rw [List.length_take]
          exact Nat.min_le_left _ _
      _ ≤ ipp := hle
  · have h0 := paginated_flatten_aux l ipp (totalPagesCount l.length ipp) 0
    simp only [Nat.zero_mul, List.drop_zero, Nat.zero_add] at h0
    rw [h0]
    exact List.take_of_length_le (totalPagesCount_mul_ge l.length ipp hipp)

/-- C8 witness: three results paginated two per page split into pages
of sizes 2 and 1 whose concatenation is the original list. -/
theorem claim8_pagination_partitions_witness :
    (paginatedResults
      [ { url := "a", title := "A", contentSnippet := "", similarityScore := 0,
          route := [], lastCrawled := 0, domain := none },
        { url := "b", title := "B", contentSnippet := "", similarityScore := 0,
          route := [], lastCrawled := 0, domain := none },
        { url := "c", title := "C", contentSnippet := "", similarityScore := 0,
          route := [], lastCrawled := 0, domain := none } ] 1 2).length ≤ 2 ∧
    ((List.range' 1 (totalPagesCount
        ([ { url := "a", title := "A", contentSnippet := "", similarityScore := 0,
             route := [], lastCrawled := 0, domain := none },
           { url := "b", title := "B", contentSnippet := "", similarityScore := 0,
             route := [], lastCrawled := 0, domain := none },
           { url := "c", title := "C", contentSnippet := "", similarityScore := 0,
             route := [], lastCrawled := 0, domain := none } ] : List FrontendResult).length
        2)).map
      (fun pg => paginatedResults
        [ { url := "a", title := "A", contentSnippet := "", similarityScore := 0,
            route := [], lastCrawled := 0, domain := none },
          { url := "b", title := "B", contentSnippet := "", similarityScore := 0,
            route := [], lastCrawled := 0, domain := none },
          { url := "c", title := "C", contentSnippet := "", similarityScore := 0,
            route := [], lastCrawled := 0, domain := none } ] pg 2)).flatten
      = [ { url := "a", title := "A", contentSnippet := "", similarityScore := 0,
            route := [], lastCrawled := 0, domain := none },
          { url := "b", title := "B", contentSnippet := "", similarityScore := 0,
            route := [], lastCrawled := 0, domain := none },
          { url := "c", title := "C", contentSnippet := "", similarityScore := 0,
            route := [], lastCrawled := 0, domain := none } ] :=
  claim8_pagination_partitions
    [ { url := "a", title := "A", contentSnippet := "", similarityScore := 0,
        route := [], lastCrawled := 0, domain := none },
      { url := "b", title := "B", contentSnippet := "", similarityScore := 0,
        route := [], lastCrawled := 0, domain := none },
      { url := "c", title := "C", contentSnippet := "", similarityScore := 0,
        route := [], lastCrawled := 0, domain := none } ] 1 2 (by decide)

/-- A nonempty pattern is not a prefix of the empty list. -/
theorem hasPrefixL_nil (pat : List Char) (hp : pat ≠ []) :
    hasPrefixL pat [] = false := by
  cases pat with
  | nil => exact absurd rfl hp
  | cons a as => rfl

/-- removeFirstL removes exactly the first occurrence of the pattern:
if the pattern occurs at index i and at no earlier index, the result is
the input with the pat.length characters at index i cut out. -/
theorem removeFirstL_at_first_occurrence (pat : List Char) (hp : pat ≠ []) :
    ∀ (i : Nat) (l : List Char), occursAtB pat l i = true →
      (∀ j, j < i → occursAtB pat l j = false) →
      removeFirstL pat l = l.take i ++ l.drop (i + pat.length) := by
  intro i
  induction i with
  | zero =>
    intro l hocc _
    unfold occursAtB at hocc
    rw [List.drop_zero] at hocc
    cases l with
    | nil => rw [hasPrefixL_nil pat hp] at hocc; exact absurd hocc (by simp)
    | cons c cs =>
      unfold removeFirstL
      rw [if_pos hocc]
      simp
  | succ i ih =>
    intro l hocc hfirst
    have h0 : hasPrefixL pat l = false := by
      have := hfirst 0 (Nat.succ_pos i)
      unfold occursAtB at this
      rwa [List.drop_zero] at this
    cases l with
    | nil =>
      unfold occursAtB at hocc
      rw [List.drop_nil, hasPrefixL_nil pat hp] at hocc
      exact absurd hocc (by simp)
    | cons c cs =>
      unfold removeFirstL
      rw [if_neg (by rw [h0]; simp)]
      have hocc' : occursAtB pat cs i = true := by
        unfold occursAtB at hocc ⊢
        rwa [List.drop_succ_cons] at hocc
      have hfirst' : ∀ j, j < i → occursAtB pat cs j = false := by
        intro j hj
        have := hfirst (j + 1) (by omega)
        unfold occursAtB at this ⊢
        rwa [List.drop_succ_cons] at this
      rw [ih cs hocc' hfirst']
      rw [List.take_succ_cons]
      have : i + 1 + pat.length = (i + pat.length) + 1 := by omega
      rw [this, List.drop_succ_cons]
      rfl

/-- removeFirstL leaves the list unchanged when the pattern occurs
nowhere in it. -/
theorem removeFirstL_no_occurrence (pat : List Char) :
    ∀ l : List Char, (∀ j, j < l.length → occursAtB pat l j = false) →
      removeFirstL pat l = l := by
  intro l
  induction l with
  | nil => intro _; rfl
  | cons c cs ih =>
    intro hno
    have h0 : hasPrefixL pat (c :: cs) = false := by
      have := hno 0 (by simp)
      unfold occursAtB at this
      rwa [List.drop_zero] at this
    unfold removeFirstL
    rw [if_neg (by rw [h0]; simp)]
    rw [ih ?_]
    intro j hj
    have := hno (j + 1) (by simp; omega)
    unfold occursAtB at this ⊢
    rwa [List.drop_succ_cons] at this

/-- C10: extractDomain never fails — an input whose URL parse fails
maps to "unknown", and an input that parses maps to its hostname with
the first occurrence of the substring "www." cut out wherever it sits
(not only as a leading prefix), the hostname being left unchanged when
"www." does not occur in it. -/
theorem claim10_extractDomain_total (parseHostname : String → Option (List Char))
    (url₁ url₂ url₃ : String) (host host₃ : List Char) (i : Nat)
    (h₁ : parseHostname url₁ = none)
    (h₂ : parseHostname url₂ = some host)
    (hocc : occursAtB wwwPat host i = true)
    (hfirst : ∀ j, j < i → occursAtB wwwPat host j = false)
    (h₃ : parseHostname url₃ = some host₃)
    (hno : ∀ j, j < host₃.length → occursAtB wwwPat host₃ j = false) :
    extractDomain parseHostname url₁ = "unknown".toList ∧
    extractDomain parseHostname url₂ = host.take i ++ host.drop (i + 4) ∧
    extractDomain parseHostname url₃ = host₃ := by
  refine ⟨?_, ?_, ?_⟩
  · unfold extractDomain
    rw [h₁]
  · unfold extractDomain
    rw [h₂]
    exact removeFirstL_at_first_occurrence wwwPat (by decide) i host hocc hfirst
  · unfold extractDomain
    rw [h₃]
    exact removeFirstL_no_occurrence wwwPat host₃ hno

/-- C10 witness: a failing parse yields "unknown"; the hostname
id.www.upi.edu loses its interior "www." (occurrence at index 3, not a
prefix) becoming id.upi.edu; and upi.edu is returned unchanged. -/
theorem claim10_extractDomain_total_witness :
    extractDomain
        (fun u => if u = "%bad%" then none
          else if u = "https://id.www.upi.edu" then some "id.www.upi.edu".toList
          else if u = "https://upi.edu" then some "upi.edu".toList
          else none)
        "%bad%" = "unknown".toList ∧
    extractDomain
        (fun u => if u = "%bad%" then none
          else if u = "https://id.www.upi.edu" then some "id.www.upi.edu".toList
          else if u = "https://upi.edu" then some "upi.edu".toList
          else none)
        "https://id.www.upi.edu"
      = "id.www.upi.edu".toList.take 3 ++ "id.www.upi.edu".toList.drop (3 + 4) ∧
    extractDomain
        (fun u => if u = "%bad%" then none
          else if u = "https://id.www.upi.edu" then some "id.www.upi.edu".toList
          else if u = "https://upi.edu" then some "upi.edu".toList
          else none)
        "https://upi.edu" = "upi.edu".toList :=
  claim10_extractDomain_total
    (fun u => if u = "%bad%" then none
      else if u = "https://id.www.upi.edu" then some "id.www.upi.edu".toList
      else if u = "https://upi.edu" then some "upi.edu".toList
      else none)
    "%bad%" "https://id.www.upi.edu" "https://upi.edu"
    "id.www.upi.edu".toList "upi.edu".toList 3
    (by decide) (by decide) (by decide) (by decide) (by decide) (by decide)

/-- In a store with unique urls, looking a stored page up by its own
url finds exactly that page. -/
theorem findPage_self (store : List Page) (p : Page) (hmem : p ∈ store)
    (hnd : (store.map Page.url).Nodup) : findPage store p.url = some p := by
  induction store with
  | nil => exact absurd hmem (List.not_mem_nil p)
  | cons h t ih =>
    rw [List.map_cons, List.nodup_cons] at hnd
    rcases List.mem_cons.mp hmem with heq | hmemt
    · subst heq
      unfold findPage
      rw [List.find?_cons_of_pos t (by simp)]
    · by_cases hurl : h.url = p.url
      · exact absurd (hurl ▸ List.mem_map_of_mem Page.url hmemt) hnd.1
      · unfold findPage
        rw [List.find?_cons_of_neg t (by simp [hurl])]
        exact ih hmemt hnd.2

/-- Route reconstruction at the page's own depth: length is depth + 1,
the last step is the page itself, and the first step is a seed page of
the store. -/
theorem route_spec_aux (store : List Page) (hwf : wfStoreB store = true)
    (hnd : (store.map Page.url).Nodup) :
    ∀ (n : Nat) (p : Page), p ∈ store → p.depth = n →
      (routeAux store n p).length = n + 1 ∧
      lastUrlOf (routeAux store n p) = some p.url ∧
      seedAt store (firstUrlOf (routeAux store n p)) = true := by
  have hwf' : ∀ p ∈ store, pageOkB store p = true := List.all_eq_true.mp hwf
  intro n
  induction n with
  | zero =>
    intro p hmem hdepth
    refine ⟨rfl, rfl, ?_⟩
    have hfind : findPage store p.url = some p := findPage_self store p hmem hnd
    have hparent : p.parent = none := by
      have hok := hwf' p hmem
      unfold pageOkB at hok
      cases hp : p.parent with
      | none => rfl
      | some u =>
        rw [hp] at hok
        cases hq : findPage store u with
        | none => simp [hq] at hok
        | some q => simp [hq, hdepth] at hok
    show seedAt store (firstUrlOf [{ url := p.url, title := p.title }]) = true
    simp [firstUrlOf, seedAt, hfind, hdepth, hparent]
  | succ n ih =>
    intro p hmem hdepth
    have hok := hwf' p hmem
    unfold pageOkB at hok
    cases hp : p.parent with
    | none =>
      rw [hp] at hok
      simp [hdepth] at hok
    | some u =>
      rw [hp] at hok
      cases hq : findPage store u with
      | none => simp [hq] at hok
      | some q =>
        have hqdepth : q.depth = n := by
          simp [hq] at hok
          omega
        have hqmem : q ∈ store := by
          unfold findPage at hq
          exact List.mem_of_find?_eq_some hq
        obtain ⟨ihlen, _, ihseed⟩ := ih q hqmem hqdepth
        have hunf : routeAux store (n + 1) p
            = routeAux store n q ++ [{ url := p.url, title := p.title }] := by
          simp only [routeAux, hp, hq]
        refine ⟨?_, ?_, ?_⟩
        · rw [hunf, List.length_append, ihlen]
          rfl
        · unfold lastUrlOf
          rw [hunf, List.getLast?_concat]
          rfl
        · have hne : routeAux store n q ≠ [] := by
            intro hcontra
            rw [hcontra] at ihlen
            simp at ihlen
          have hfirst : firstUrlOf (routeAux store (n + 1) p)
              = firstUrlOf (routeAux store n q) := by
            unfold firstUrlOf
            rw [hunf, List.head?_append]
            cases hh : (routeAux store n q).head? with
            | none => exact absurd (List.head?_eq_none_iff.mp hh) hne
            | some s => rfl
          rw [hfirst]
          exact ihseed

/-- C2: for every crawled page p of a well-formed page store, the
reconstructed route has length depth(p) + 1, its last step's url is
p.url, and its first step names a seed page (depth 0, no parent). -/
theorem claim2_route_invariant (store : List Page) (p : Page)
    (hwf : wfStoreB store = true) (hnd : (store.map Page.url).Nodup)
    (hmem : p ∈ store) :
    (route store p).length = p.depth + 1 ∧
    lastUrlOf (route store p) = some p.url ∧
    seedAt store (firstUrlOf (route store p)) = true :=
  route_spec_aux store hwf hnd p.depth p hmem rfl

/-- C2 witness: a three-page chain seed -> b -> c; the route of c has
length 3 = depth 2 + 1, ends at c, and starts at the seed. -/
theorem claim2_route_invariant_witness :
    (route
      [ { url := "https://upi.edu", title := "Seed", depth := 0, parent := none },
        { url := "https://upi.edu/b", title := "B", depth := 1,
          parent := some "https://upi.edu" },
        { url := "https://upi.edu/c", title := "C", depth := 2,
          parent := some "https://upi.edu/b" } ]
      { url := "https://upi.edu/c", title := "C", depth := 2,
        parent := some "https://upi.edu/b" }).length
      = ({ url := "https://upi.edu/c", title := "C", depth := 2,
           parent := some "https://upi.edu/b" } : Page).depth + 1 ∧
    lastUrlOf (route
      [ { url := "https://upi.edu", title := "Seed", depth := 0, parent := none },
        { url := "https://upi.edu/b", title := "B", depth := 1,
          parent := some "https://upi.edu" },
        { url := "https://upi.edu/c", title := "C", depth := 2,
          parent := some "https://upi.edu/b" } ]
      { url := "https://upi.edu/c", title := "C", depth := 2,
        parent := some "https://upi.edu/b" }) = some "https://upi.edu/c" ∧
    seedAt
      [ { url := "https://upi.edu", title := "Seed", depth := 0, parent := none },
        { url := "https://upi.edu/b", title := "B", depth := 1,
          parent := some "https://upi.edu" },
        { url := "https://upi.edu/c", title := "C", depth := 2,
          parent := some "https://upi.edu/b" } ]
      (firstUrlOf (route
        [ { url := "https://upi.edu", title := "Seed", depth := 0, parent := none },
          { url := "https://upi.edu/b", title := "B", depth := 1,
            parent := some "https://upi.edu" },
          { url := "https://upi.edu/c", title := "C", depth := 2,
            parent := some "https://upi.edu/b" } ]
        { url := "https://upi.edu/c", title := "C", depth := 2,
          parent := some "https://upi.edu/b" })) = true :=
  claim2_route_invariant
    [ { url := "https://upi.edu", title := "Seed", depth := 0, parent := none },
      { url := "https://upi.edu/b", title := "B", depth := 1,
        parent := some "https://upi.edu" },
      { url := "https://upi.edu/c", title := "C", depth := 2,
        parent := some "https://upi.edu/b" } ]
    { url := "https://upi.edu/c", title := "C", depth := 2,
      parent := some "https://upi.edu/b" }
    (by decide) (by decide) (by decide)

/-- A constant-valued map is non-decreasing. -/
theorem pairwise_le_map_const (c : Nat) (L : List String) :
    List.Pairwise (fun a b => a ≤ b) (L.map (fun _ => c)) := by
  induction L with
  | nil => simp
  | cons a L ih =>
    rw [List.map_cons, List.pairwise_cons]
    refine ⟨?_, ih⟩
    intro b hb
    rcases List.mem_map.mp hb with ⟨x, _, rfl⟩
    exact le_refl c

/-- FIFO frontier invariant: if the queue's depths are non-decreasing
and span at most two consecutive levels, then the visit order produced
by the breadth-first loop has non-decreasing depths, and every visited
depth is bounded below by some queued depth. -/
theorem bfsRun_depths (succ : String → List String) (maxDepth : Nat) :
    ∀ (fuel : Nat) (queue : List (String × Nat)) (visited : List String),
      List.Pairwise (fun a b => a ≤ b) (queue.map Prod.snd) →
      (∀ a ∈ queue.map Prod.snd, ∀ b ∈ queue.map Prod.snd, b ≤ a + 1) →
      List.Pairwise (fun a b => a ≤ b)
        ((bfsRun succ maxDepth fuel queue visited).map Prod.snd) ∧
      (∀ y ∈ (bfsRun succ maxDepth fuel queue visited).map Prod.snd,
        ∃ x ∈ queue.map Prod.snd, x ≤ y) := by
  intro fuel
  induction fuel with
  | zero =>
    intro queue visited _ _
    constructor
    · simp [bfsRun]
    · simp [bfsRun]
  | succ fuel ih =>
    intro queue visited hsort hbound
    rcases queue with _ | ⟨⟨u, d⟩, rest⟩
    · constructor <;> simp [bfsRun]
    · simp only [List.map_cons] at hsort hbound
      have hskip : ∀ hout : bfsRun succ maxDepth (fuel + 1) ((u, d) :: rest) visited
            = bfsRun succ maxDepth fuel rest visited,
          List.Pairwise (fun a b => a ≤ b)
            ((bfsRun succ maxDepth (fuel + 1) ((u, d) :: rest) visited).map Prod.snd) ∧
          (∀ y ∈ (bfsRun succ maxDepth (fuel + 1) ((u, d) :: rest) visited).map Prod.snd,
            ∃ x ∈ d :: rest.map Prod.snd, x ≤ y) := by
        intro hout
        rw [hout]
        have hsort' : List.Pairwise (fun a b => a ≤ b) (rest.map Prod.snd) :=
          (List.pairwise_cons.mp hsort).2
        have hbound' : ∀ a ∈ rest.map Prod.snd, ∀ b ∈ rest.map Prod.snd, b ≤ a + 1 := by
          intro a ha b hb
          exact hbound a (List.mem_cons_of_mem _ ha) b (List.mem_cons_of_mem _ hb)
        obtain ⟨s1, s2⟩ := ih rest visited hsort' hbound'
        refine ⟨s1, ?_⟩
        intro y hy
        obtain ⟨x, hx, hxy⟩ := s2 y hy
        exact ⟨x, List.mem_cons_of_mem _ hx, hxy⟩
      by_cases hv : u ∈ visited
      · exact hskip (by simp only [bfsRun, if_pos hv])
      · by_cases hd : maxDepth < d
        · exact hskip (by simp only [bfsRun, if_neg hv, if_pos hd])
        · have hout : bfsRun succ maxDepth (fuel + 1) ((u, d) :: rest) visited
              = (u, d) :: bfsRun succ maxDepth fuel
                  (rest ++ (succ u).map (fun v => (v, d + 1))) (u :: visited) := by
            simp only [bfsRun, if_neg hv, if_neg hd]
          rw [hout]
          set kids := (succ u).map (fun v => (v, d + 1)) with hkids
          have hkidsD : kids.map Prod.snd = (succ u).map (fun _ => d + 1) := by
            rw [hkids, List.map_map]
            rfl
          have hdle : ∀ b ∈ rest.map Prod.snd, d ≤ b :=
            (List.pairwise_cons.mp hsort).1
          have hble : ∀ b ∈ rest.map Prod.snd, b ≤ d + 1 := by
            intro b hb
            exact hbound d (List.mem_cons_self _ _) b (List.mem_cons_of_mem _ hb)
          have hdlenew : ∀ x ∈ (rest ++ kids).map Prod.snd, d ≤ x := by
            intro x hx
            rw [List.map_append] at hx
            rcases List.mem_append.mp hx with h | h
            · exact hdle x h
            · rw [hkidsD] at h
              rcases List.mem_map.mp h with ⟨t, _, rfl⟩
              omega
          have hnewsort : List.Pairwise (fun a b => a ≤ b)
              ((rest ++ kids).map Prod.snd) := by
            rw [List.map_append, List.pairwise_append]
            refine ⟨(List.pairwise_cons.mp hsort).2, ?_, ?_⟩
            · rw [hkidsD]
              exact pairwise_le_map_const (d + 1) (succ u)
            · intro a ha b hb
              rw [hkidsD] at hb
              rcases List.mem_map.mp hb with ⟨x, _, rfl⟩
              exact hble a ha
          have hnewbound : ∀ a ∈ (rest ++ kids).map Prod.snd,
              ∀ b ∈ (rest ++ kids).map Prod.snd, b ≤ a + 1 := by
            intro a ha b hb
            have had : d ≤ a := hdlenew a ha
            have hbd : b ≤ d + 1 := by
              rw [List.map_append] at hb
              rcases List.mem_append.mp hb with h | h
              · exact hble b h
              · rw [hkidsD] at h
                rcases List.mem_map.mp h with ⟨x, _, rfl⟩
                exact le_refl _
            omega
          obtain ⟨s1, s2⟩ := ih (rest ++ kids) (u :: visited) hnewsort hnewbound
          constructor
          · rw [List.map_cons, List.pairwise_cons]
            refine ⟨?_, s1⟩
            intro b hb
            obtain ⟨x, hx, hxb⟩ := s2 b hb
            have := hdlenew x hx
            show d ≤ b
            omega
          · intro y hy
            rw [List.map_cons] at hy
            refine ⟨d, List.mem_cons_self _ _, ?_⟩
            rcases List.mem_cons.mp hy with rfl | hy'
            · exact le_refl _
            · obtain ⟨x, hx, hxy⟩ := s2 y hy'
              have := hdlenew x hx
              omega

/-- The visit order of a breadth-first crawl from depth-0 seeds has
non-decreasing depths. -/
theorem bfsCrawl_depths_sorted (succ : String → List String) (maxDepth fuel : Nat)
    (seeds : List String) :
    List.Pairwise (fun a b => a ≤ b)
      ((bfsCrawl succ maxDepth fuel seeds).map Prod.snd) := by
  have h0 : (seeds.map (fun s => (s, 0))).map Prod.snd
      = seeds.map (fun _ => (0 : Nat)) := by
    rw [List.map_map]
    rfl
  have hsort : List.Pairwise (fun a b => a ≤ b)
      ((seeds.map (fun s => (s, 0))).map Prod.snd) := by
    rw [h0]
    exact pairwise_le_map_const 0 seeds
  have hbound : ∀ a ∈ (seeds.map (fun s => (s, 0))).map Prod.snd,
      ∀ b ∈ (seeds.map (fun s => (s, 0))).map Prod.snd, b ≤ a + 1 := by
    intro a ha b hb
    rw [h0] at ha hb
    rcases List.mem_map.mp ha with ⟨x, _, rfl⟩
    rcases List.mem_map.mp hb with ⟨y, _, rfl⟩
    omega
  exact (bfsRun_depths succ maxDepth fuel (seeds.map (fun s => (s, 0))) []
    hsort hbound).1

/-- Indexing into a mapped depth list agrees with projecting the pair. -/
theorem get_map_snd (l : List (String × Nat)) (n : Nat)
    (h1 : n < (l.map Prod.snd).length) (h2 : n < l.length) :
    (l.map Prod.snd).get ⟨n, h1⟩ = (l.get ⟨n, h2⟩).2 := by
  induction l generalizing n with
  | nil => simp at h2
  | cons a l ih =>
    cases n with
    | zero => rfl
    | succ n => exact ih n (by simpa using h1) (by simpa using h2)

/-- C3: under breadth-first traversal, every page at depth k is visited
before any page at depth k + 1 — in the visit order produced by the
FIFO frontier, the index of any depth-k entry is strictly below the
index of any depth-(k+1) entry. -/
theorem claim3_bfs_level_order (succ : String → List String) (maxDepth fuel : Nat)
    (seeds : List String) (i j k : Nat)
    (hi : i < (bfsCrawl succ maxDepth fuel seeds).length)
    (hj : j < (bfsCrawl succ maxDepth fuel seeds).length)
    (hdi : ((bfsCrawl succ maxDepth fuel seeds).get ⟨i, hi⟩).2 = k)
    (hdj : ((bfsCrawl succ maxDepth fuel seeds).get ⟨j, hj⟩).2 = k + 1) :
    i < j := by
  have hsorted := bfsCrawl_depths_sorted succ maxDepth fuel seeds
  by_contra hcon
  have hji : j ≤ i := Nat.le_of_not_lt hcon
  have hmlen : ∀ m : Nat, m < (bfsCrawl succ maxDepth fuel seeds).length →
      m < ((bfsCrawl succ maxDepth fuel seeds).map Prod.snd).length := by
    intro m hm
    simpa using hm
  rcases Nat.eq_or_lt_of_le hji with heq | hlt
  · subst heq
    have hsame : ((bfsCrawl succ maxDepth fuel seeds).get ⟨j, hi⟩).2 = k + 1 := hdj
    rw [hdi] at hsame
    omega
  · have hrel := List.Sorted.rel_get_of_lt hsorted
      (a := ⟨j, hmlen j hj⟩) (b := ⟨i, hmlen i hi⟩) (Fin.mk_lt_mk.mpr hlt)
    rw [get_map_snd _ j (hmlen j hj) hj, get_map_snd _ i (hmlen i hi) hi] at hrel
    rw [hdi, hdj] at hrel
    omega

/-- C3 witness: for the graph a -> b, c and b -> d, breadth-first
visits b (depth 1, index 1) before d (depth 2, index 3). -/
theorem claim3_bfs_level_order_witness : (1 : Nat) < 3 :=
  claim3_bfs_level_order
    (fun u => if u = "a" then ["b", "c"] else if u = "b" then ["d"] else [])
    5 20 ["a"] 1 3 1 (by decide) (by decide) (by decide) (by decide)

/-- C6 witness: filtering two concrete results by the domain upi.edu
keeps exactly the result carrying that domain, as a sublist, while
filter "all" keeps both. -/
theorem claim6_domain_filter_witness :
    filteredResults "all"
      [ { url := "https://upi.edu/a", title := "A", contentSnippet := "",
          similarityScore := 0, route := [], lastCrawled := 0,
          domain := some "upi.edu" },
        { url := "https://other.org/b", title := "B", contentSnippet := "",
          similarityScore := 0, route := [], lastCrawled := 0,
          domain := some "other.org" } ]
      = [ { url := "https://upi.edu/a", title := "A", contentSnippet := "",
            similarityScore := 0, route := [], lastCrawled := 0,
            domain := some "upi.edu" },
          { url := "https://other.org/b", title := "B", contentSnippet := "",
            similarityScore := 0, route := [], lastCrawled := 0,
            domain := some "other.org" } ] ∧
    (({ url := "https://upi.edu/a", title := "A", contentSnippet := "",
        similarityScore := 0, route := [], lastCrawled := 0,
        domain := some "upi.edu" } : FrontendResult)
        ∈ filteredResults "upi.edu"
          [ { url := "https://upi.edu/a", title := "A", contentSnippet := "",
              similarityScore := 0, route := [], lastCrawled := 0,
              domain := some "upi.edu" },
            { url := "https://other.org/b", title := "B", contentSnippet := "",
              similarityScore := 0, route := [], lastCrawled := 0,
              domain := some "other.org" } ]
      ↔ (({ url := "https://upi.edu/a", title := "A", contentSnippet := "",
            similarityScore := 0, route := [], lastCrawled := 0,
            domain := some "upi.edu" } : FrontendResult)
          ∈ [ { url := "https://upi.edu/a", title := "A", contentSnippet := "",
                similarityScore := 0, route := [], lastCrawled := 0,
                domain := some "upi.edu" },
              { url := "https://other.org/b", title := "B", contentSnippet := "",
                similarityScore := 0, route := [], lastCrawled := 0,
                domain := some "other.org" } ]
        ∧ ({ url := "https://upi.edu/a", title := "A", contentSnippet := "",
             similarityScore := 0, route := [], lastCrawled := 0,
             domain := some "upi.edu" } : FrontendResult).domain
            = some "upi.edu")) ∧
    (filteredResults "upi.edu"
      [ { url := "https://upi.edu/a", title := "A", contentSnippet := "",
          similarityScore := 0, route := [], lastCrawled := 0,
          domain := some "upi.edu" },
        { url := "https://other.org/b", title := "B", contentSnippet := "",
          similarityScore := 0, route := [], lastCrawled := 0,
          domain := some "other.org" } ]).Sublist
      [ { url := "https://upi.edu/a", title := "A", contentSnippet := "",
          similarityScore := 0, route := [], lastCrawled := 0,
          domain := some "upi.edu" },
        { url := "https://other.org/b", title := "B", contentSnippet := "",
          similarityScore := 0, route := [], lastCrawled := 0,
          domain := some "other.org" } ] :=
  claim6_domain_filter
    [ { url := "https://upi.edu/a", title := "A", contentSnippet := "",
        similarityScore := 0, route := [], lastCrawled := 0,
        domain := some "upi.edu" },
      { url := "https://other.org/b", title := "B", contentSnippet := "",
        similarityScore := 0, route := [], lastCrawled := 0,
        domain := some "other.org" } ]
    "upi.edu"
    { url := "https://upi.edu/a", title := "A", contentSnippet := "",
      similarityScore := 0, route := [], lastCrawled := 0,
      domain := some "upi.edu" }
    (by decide)
